import Mathlib

/-!
Shallow embedding of the `pifp_protocol` Soroban contract
(`src/contracts/pifp_protocol/src/storage.rs` and its callers).

Storage-level operations (`storage.get_and_increment_project_id`, `storage.save_project`,
`storage.load_project`, `storage.set_oracle`, `storage.get_oracle`) are translated directly from
`storage.rs`.  The contract entry points (`register_project`, `get_project`,
`set_oracle`, `verify_and_release`) and the `Project` / `ProjectStatus` types
live in files that are not part of the given sources (only `storage.rs` and
`test.rs` are), so they are modelled from the specification, as marked on
each definition.

Machine integers: the project counter is a Rust `u64`; its successor is
computed with an unchecked `current + 1`, modelled as addition modulo `2^64`.
Addresses are abstracted as natural numbers; 32-byte hashes as byte lists.
Rust panics (`expect` and explicit panics in the contract) abort the enclosing ledger
transaction, leaving the persistent state unchanged; they are modelled as
`Except.error` results carrying the error kind, with `PifpError.message`
giving the panic message.  `runVerify` / `runRegister` expose the resulting
persistent state of a whole call (errors leave the state unchanged, matching
whole-call atomicity of the host ledger).
-/

/-- Addresses (Soroban `Address`), abstracted as natural numbers. -/
abbrev Address := Nat

/-- 32-byte hashes (`BytesN<32>`), as lists of bytes. -/
abbrev Hash := List Nat

/-- Project lifecycle status (`crate::types::ProjectStatus`):
`Funding` is initial, `Completed` terminal. -/
inductive ProjectStatus where
  | Funding
  | Completed
deriving DecidableEq, Repr

/-- A funding project record (`crate::types::Project`). -/
structure Project where
  id : Nat
  creator : Address
  goal : Int
  balance : Int
  proof_hash : Hash
  deadline : Nat
  status : ProjectStatus
deriving DecidableEq, Repr

/-- Error kinds corresponding to the contract's panic messages. -/
inductive PifpError where
  | InvalidGoal
  | InvalidDeadline
  | NotFound
  | NotConfigured
  | AlreadyCompleted
  | HashMismatch
deriving DecidableEq, Repr

/-- The panic message attached to each error kind. -/
def PifpError.message : PifpError → String
  | PifpError.InvalidGoal => "goal must be positive"
  | PifpError.InvalidDeadline => "deadline must be in the future"
  | PifpError.NotFound => "project not found"
  | PifpError.NotConfigured => "oracle not set"
  | PifpError.AlreadyCompleted => "project already completed"
  | PifpError.HashMismatch => "proof verification failed: hash mismatch"

/-- The modulus `2^64` of Rust's `u64`. -/
def U64_MOD : Nat := 2 ^ 64

/-- The persistent contract storage: the three `DataKey` categories of
`storage.rs` (`ProjectCount`, `Project(id)`, `OracleKey`) never collide, so
the keyed store splits into three fields; `none` is an absent entry. -/
structure Storage where
  projectCount : Option Nat
  projects : Nat → Option Project
  oracle : Option Address

/-- The empty storage (no key has ever been written). -/
def Storage.empty : Storage :=
  { projectCount := none, projects := fun _ => none, oracle := none }

/-- Translation of `storage.rs::get_and_increment_project_id`: reads the counter
(`unwrap_or(0)` treats absence as 0), stores the u64 successor, and returns
the pre-increment value. -/
def storage.get_and_increment_project_id (s : Storage) : Nat × Storage :=
  let current : Nat := s.projectCount.getD 0
  (current, { s with projectCount := some ((current + 1) % U64_MOD) })

/-- Translation of `storage.rs::save_project`: unconditional overwrite of the entry at
`Project(project.id)`. -/
def storage.save_project (s : Storage) (project : Project) : Storage :=
  { s with projects := fun i => if i = project.id then some project else s.projects i }

/-- Translation of `storage.rs::load_project`: panics with "project not found" when the
entry is absent, otherwise returns the stored value. -/
def storage.load_project (s : Storage) (id : Nat) : Except PifpError Project :=
  match s.projects id with
  | some p => Except.ok p
  | none => Except.error PifpError.NotFound

/-- Translation of `storage.rs::set_oracle`: unconditional overwrite of `OracleKey`. -/
def storage.set_oracle (s : Storage) (oracle : Address) : Storage :=
  { s with oracle := some oracle }

/-- Translation of `storage.rs::get_oracle`: panics with "oracle not set" when `OracleKey`
is absent. -/
def storage.get_oracle (s : Storage) : Except PifpError Address :=
  match s.oracle with
  | some a => Except.ok a
  | none => Except.error PifpError.NotConfigured

/-- Modelled from the spec: the body of the contract entry point
`register_project` is not under the given sources (only `storage.rs` and
`test.rs` are).  Per the spec: require `goal > 0` (else `InvalidGoal`), then
`deadline > current_ledger_time` (else `InvalidDeadline`); allocate an id via
the store, build a `Project` with `balance = 0` and `status = Funding`,
persist it, return it. -/
def PifpProtocol.register_project (s : Storage) (now : Nat) (creator : Address)
    (goal : Int) (proof_hash : Hash) (deadline : Nat) :
    Except PifpError (Project × Storage) :=
  if goal ≤ 0 then Except.error PifpError.InvalidGoal
  else if deadline ≤ now then Except.error PifpError.InvalidDeadline
  else
    let r := storage.get_and_increment_project_id s
    let project : Project :=
      { id := r.1, creator := creator, goal := goal, balance := 0,
        proof_hash := proof_hash, deadline := deadline,
        status := ProjectStatus.Funding }
    Except.ok (project, storage.save_project r.2 project)

/-- Modelled from the spec: the contract entry point `get_project` (body not
under the given sources) is a pass-through to the store's `storage.load_project`. -/
def PifpProtocol.get_project (s : Storage) (id : Nat) : Except PifpError Project :=
  storage.load_project s id

/-- Modelled from the spec: the contract entry point `set_oracle` (body not
under the given sources) overwrites `OracleKey` unconditionally; the
administrator authorization check is an external collaborator and does not
touch this state. -/
def PifpProtocol.set_oracle (s : Storage) (_admin : Address) (oracle : Address) : Storage :=
  storage.set_oracle s oracle

/-- Modelled from the spec: the contract entry point `verify_and_release`
(body not under the given sources), sequential steps with early termination:
1. resolve the oracle (`NotConfigured` if never set); 2. load the project
(`NotFound` if absent); 3. reject `Completed` projects (`AlreadyCompleted`);
4. compare the submitted hash byte-for-byte (`HashMismatch`); 5. on success
set `status = Completed` and persist. -/
def PifpProtocol.verify_and_release (s : Storage) (project_id : Nat)
    (submitted_hash : Hash) : Except PifpError Storage :=
  match storage.get_oracle s with
  | Except.error e => Except.error e
  | Except.ok _oracle =>
    match storage.load_project s project_id with
    | Except.error e => Except.error e
    | Except.ok project =>
      if project.status = ProjectStatus.Completed then
        Except.error PifpError.AlreadyCompleted
      else if submitted_hash ≠ project.proof_hash then
        Except.error PifpError.HashMismatch
      else
        Except.ok (storage.save_project s { project with status := ProjectStatus.Completed })

/-- Persistent state after a whole `verify_and_release` call: a panic aborts
the ledger transaction, leaving the state unchanged. -/
def runVerify (s : Storage) (project_id : Nat) (submitted_hash : Hash) : Storage :=
  match PifpProtocol.verify_and_release s project_id submitted_hash with
  | Except.ok s' => s'
  | Except.error _ => s

/-- Persistent state after a whole `register_project` call: a panic aborts
the ledger transaction, leaving the state unchanged. -/
def runRegister (s : Storage) (now : Nat) (creator : Address) (goal : Int)
    (proof_hash : Hash) (deadline : Nat) : Storage :=
  match PifpProtocol.register_project s now creator goal proof_hash deadline with
  | Except.ok r => r.2
  | Except.error _ => s

/-- One top-level state-changing call that succeeds (failed calls abort and
leave the state unchanged; `get_project` reads only). -/
inductive Step : Storage → Storage → Prop where
  | register (s : Storage) (now : Nat) (creator : Address) (goal : Int)
      (proof_hash : Hash) (deadline : Nat) (p : Project) (s' : Storage)
      (h : PifpProtocol.register_project s now creator goal proof_hash deadline
            = Except.ok (p, s')) : Step s s'
  | set_oracle (s : Storage) (admin oracle : Address) :
      Step s (PifpProtocol.set_oracle s admin oracle)
  | verify (s : Storage) (project_id : Nat) (submitted_hash : Hash) (s' : Storage)
      (h : PifpProtocol.verify_and_release s project_id submitted_hash
            = Except.ok s') : Step s s'

/-- States reachable from the empty storage by successful calls. -/
def Reachable (s : Storage) : Prop :=
  Relation.ReflTransGen Step Storage.empty s

/-- Arguments of one `register_project` call (with the ledger time at which
it runs). -/
structure RegArgs where
  now : Nat
  creator : Address
  goal : Int
  proof_hash : Hash
  deadline : Nat

/-- A sequence of `register_project` calls, collecting the returned ids;
`none` as soon as one call fails. -/
def registerSeq : List RegArgs → Storage → Option (List Nat × Storage)
  | [], s => some ([], s)
  | a :: rest, s =>
    match PifpProtocol.register_project s a.now a.creator a.goal a.proof_hash a.deadline with
    | Except.error _ => none
    | Except.ok (p, s') =>
      match registerSeq rest s' with
      | none => none
      | some (ids, s'') => some (p.id :: ids, s'')

/-! ### Basic lemmas about the store operations -/

theorem save_project_projects (s : Storage) (p : Project) (j : Nat) :
    (storage.save_project s p).projects j = if j = p.id then some p else s.projects j := rfl

theorem save_project_projectCount (s : Storage) (p : Project) :
    (storage.save_project s p).projectCount = s.projectCount := rfl

theorem save_project_oracle (s : Storage) (p : Project) :
    (storage.save_project s p).oracle = s.oracle := rfl

/-- The store's `get_oracle` returns the stored oracle exactly when one is present. -/
theorem get_oracle_ok_iff (s : Storage) (o : Address) :
    storage.get_oracle s = Except.ok o ↔ s.oracle = some o := by
  unfold storage.get_oracle; cases s.oracle <;> simp

/-- The store's `get_oracle` fails with `NotConfigured` exactly when `OracleKey` is absent. -/
theorem get_oracle_err_iff (s : Storage) :
    storage.get_oracle s = Except.error PifpError.NotConfigured ↔ s.oracle = none := by
  unfold storage.get_oracle; cases s.oracle <;> simp

/-- The store's `load_project` returns the stored project exactly when one is present. -/
theorem load_project_ok_iff (s : Storage) (id : Nat) (p : Project) :
    storage.load_project s id = Except.ok p ↔ s.projects id = some p := by
  unfold storage.load_project; cases s.projects id <;> simp

/-- The store's `load_project` fails with `NotFound` exactly when the entry is absent. -/
theorem load_project_err_iff (s : Storage) (id : Nat) :
    storage.load_project s id = Except.error PifpError.NotFound ↔ s.projects id = none := by
  unfold storage.load_project; cases s.projects id <;> simp

/-- Inversion of a successful `register_project` call. -/
theorem register_ok_inv (s : Storage) (now : Nat) (creator : Address) (goal : Int)
    (proof_hash : Hash) (deadline : Nat) (p : Project) (s' : Storage)
    (h : PifpProtocol.register_project s now creator goal proof_hash deadline
          = Except.ok (p, s')) :
    0 < goal ∧ now < deadline ∧
    p = { id := s.projectCount.getD 0, creator := creator, goal := goal, balance := 0,
          proof_hash := proof_hash, deadline := deadline,
          status := ProjectStatus.Funding } ∧
    s' = storage.save_project
          { s with projectCount := some ((s.projectCount.getD 0 + 1) % U64_MOD) } p := by
  unfold PifpProtocol.register_project storage.get_and_increment_project_id at h
  by_cases hg : goal ≤ 0
  · simp [hg] at h
  · by_cases hd : deadline ≤ now
    · simp [hg, hd] at h
    · simp only [if_neg hg, if_neg hd, Except.ok.injEq, Prod.mk.injEq] at h
      obtain ⟨h1, h2⟩ := h
      subst h1
      exact ⟨by omega, by omega, rfl, h2.symm⟩

/-- A `register_project` call on valid inputs succeeds, returning the fresh
project together with the updated storage. -/
theorem register_ok_of_valid (s : Storage) (now : Nat) (creator : Address) (goal : Int)
    (proof_hash : Hash) (deadline : Nat) (hg : 0 < goal) (hd : now < deadline) :
    PifpProtocol.register_project s now creator goal proof_hash deadline
      = Except.ok
          ({ id := s.projectCount.getD 0, creator := creator, goal := goal, balance := 0,
             proof_hash := proof_hash, deadline := deadline,
             status := ProjectStatus.Funding },
           storage.save_project
             { s with projectCount := some ((s.projectCount.getD 0 + 1) % U64_MOD) }
             { id := s.projectCount.getD 0, creator := creator, goal := goal, balance := 0,
               proof_hash := proof_hash, deadline := deadline,
               status := ProjectStatus.Funding }) := by
  unfold PifpProtocol.register_project storage.get_and_increment_project_id
  rw [if_neg (by omega), if_neg (by omega)]

/-- Inversion of a successful `verify_and_release` call. -/
theorem verify_ok_inv (s : Storage) (id : Nat) (hash : Hash) (s' : Storage)
    (h : PifpProtocol.verify_and_release s id hash = Except.ok s') :
    ∃ o p, s.oracle = some o ∧ s.projects id = some p ∧
      p.status = ProjectStatus.Funding ∧ hash = p.proof_hash ∧
      s' = storage.save_project s { p with status := ProjectStatus.Completed } := by
  unfold PifpProtocol.verify_and_release at h
  cases hgo : storage.get_oracle s with
  | error e => rw [hgo] at h; simp at h
  | ok o =>
    rw [hgo] at h
    cases hlp : storage.load_project s id with
    | error e => rw [hlp] at h; simp at h
    | ok p =>
      rw [hlp] at h
      by_cases hst : p.status = ProjectStatus.Completed
      · simp [hst] at h
      · by_cases hh : hash = p.proof_hash
        · simp only [if_neg hst, hh, ne_eq, not_true_eq_false, if_false, ite_false,
            Except.ok.injEq] at h
          exact ⟨o, p, (get_oracle_ok_iff s o).1 hgo, (load_project_ok_iff s id p).1 hlp,
            by cases hq : p.status <;> simp_all, hh, h.symm⟩
        · simp [hst, hh] at h

/-- With an oracle configured, verification of a `Completed` project is
rejected with `AlreadyCompleted`. -/
theorem verify_completed (s : Storage) (o : Address) (id : Nat) (p : Project) (hash : Hash)
    (ho : s.oracle = some o) (hp : s.projects id = some p)
    (hst : p.status = ProjectStatus.Completed) :
    PifpProtocol.verify_and_release s id hash = Except.error PifpError.AlreadyCompleted := by
  unfold PifpProtocol.verify_and_release
  rw [(get_oracle_ok_iff s o).2 ho, (load_project_ok_iff s id p).2 hp]
  simp [hst]

/-- With an oracle configured, verification of a `Funding` project with a
wrong hash is rejected with `HashMismatch`. -/
theorem verify_hash_mismatch (s : Storage) (o : Address) (id : Nat) (p : Project)
    (hash : Hash) (ho : s.oracle = some o) (hp : s.projects id = some p)
    (hst : p.status = ProjectStatus.Funding) (hh : hash ≠ p.proof_hash) :
    PifpProtocol.verify_and_release s id hash = Except.error PifpError.HashMismatch := by
  unfold PifpProtocol.verify_and_release
  rw [(get_oracle_ok_iff s o).2 ho, (load_project_ok_iff s id p).2 hp]
  simp [hst, hh]

/-- With an oracle configured, verification of an absent project id is
rejected with `NotFound`. -/
theorem verify_not_found (s : Storage) (o : Address) (id : Nat) (hash : Hash)
    (ho : s.oracle = some o) (hp : s.projects id = none) :
    PifpProtocol.verify_and_release s id hash = Except.error PifpError.NotFound := by
  unfold PifpProtocol.verify_and_release
  rw [(get_oracle_ok_iff s o).2 ho, (load_project_err_iff s id).2 hp]

/-- With no oracle configured, every verification call is rejected with
`NotConfigured` (this is step 1, before the project is even loaded). -/
theorem verify_not_configured (s : Storage) (id : Nat) (hash : Hash)
    (ho : s.oracle = none) :
    PifpProtocol.verify_and_release s id hash = Except.error PifpError.NotConfigured := by
  unfold PifpProtocol.verify_and_release
  rw [(get_oracle_err_iff s).2 ho]

/-- A failed `verify_and_release` call leaves the persistent state unchanged
(the panic aborts the enclosing transaction). -/
theorem runVerify_of_error (s : Storage) (id : Nat) (hash : Hash) (e : PifpError)
    (h : PifpProtocol.verify_and_release s id hash = Except.error e) :
    runVerify s id hash = s := by
  unfold runVerify
  rw [h]

/-- A failed `register_project` call leaves the persistent state unchanged
(the panic aborts the enclosing transaction). -/
theorem runRegister_of_error (s : Storage) (now : Nat) (creator : Address) (goal : Int)
    (proof_hash : Hash) (deadline : Nat) (e : PifpError)
    (h : PifpProtocol.register_project s now creator goal proof_hash deadline
          = Except.error e) :
    runRegister s now creator goal proof_hash deadline = s := by
  unfold runRegister
  rw [h]

/-! ### Reachability invariants -/

/-- Every `Completed` project coexists with a configured oracle: only the
oracle path completes projects, and the oracle key is never erased. -/
def CompletedHasOracle (s : Storage) : Prop :=
  ∀ id p, s.projects id = some p → p.status = ProjectStatus.Completed →
    ∃ o, s.oracle = some o

/-- The counter bounds every stored project id (true until the counter
wraps around `2^64`): freshly minted ids never collide with stored ones. -/
def CounterDominates (s : Storage) : Prop :=
  ∀ id p, s.projects id = some p → id < s.projectCount.getD 0

/-- Each successful call preserves `CompletedHasOracle`. -/
theorem step_preserves_CompletedHasOracle (s s' : Storage) (hs : Step s s')
    (h : CompletedHasOracle s) : CompletedHasOracle s' := by
  cases hs with
  | register now creator goal proof_hash deadline p s2 hok =>
    obtain ⟨-, -, hp, hs2⟩ := register_ok_inv s now creator goal proof_hash deadline p s' hok
    subst hs2
    intro id q hq hcq
    rw [save_project_projects] at hq
    rw [save_project_oracle]
    by_cases hid : id = p.id
    · rw [if_pos hid] at hq
      obtain rfl := Option.some.inj hq
      rw [hp] at hcq
      exact absurd hcq (by simp)
    · rw [if_neg hid] at hq
      exact h id q hq hcq
  | set_oracle admin oracle =>
    intro id q hq hcq
    exact ⟨oracle, rfl⟩
  | verify project_id submitted_hash s2 hok =>
    obtain ⟨o, p, ho, hp, -, -, hs2⟩ := verify_ok_inv s project_id submitted_hash s' hok
    subst hs2
    intro id q hq hcq
    rw [save_project_oracle]
    exact ⟨o, ho⟩

/-- Every reachable state satisfies `CompletedHasOracle`. -/
theorem reachable_CompletedHasOracle (s : Storage) (hr : Reachable s) :
    CompletedHasOracle s := by
  induction hr with
  | refl => intro id p hp _; simp [Storage.empty] at hp
  | tail _ hstep ih => exact step_preserves_CompletedHasOracle _ _ hstep ih

/-- Every stored project's `id` field equals its storage key (`save_project`
writes at key `project.id`, and both callers store records whose `id` is that
key). -/
def IdCoherent (s : Storage) : Prop :=
  ∀ id p, s.projects id = some p → p.id = id

/-- Each successful call preserves `IdCoherent`. -/
theorem step_preserves_IdCoherent (s s' : Storage) (hs : Step s s')
    (h : IdCoherent s) : IdCoherent s' := by
  cases hs with
  | register now creator goal proof_hash deadline p s2 hok =>
    obtain ⟨-, -, hp, hs2⟩ := register_ok_inv s now creator goal proof_hash deadline p s' hok
    subst hs2
    intro id q hq
    rw [save_project_projects] at hq
    by_cases hid : id = p.id
    · rw [if_pos hid] at hq
      obtain rfl := Option.some.inj hq
      exact hid.symm
    · rw [if_neg hid] at hq
      exact h id q hq
  | set_oracle admin oracle =>
    exact h
  | verify project_id submitted_hash s2 hok =>
    obtain ⟨o, p, ho, hp, -, -, hs2⟩ := verify_ok_inv s project_id submitted_hash s' hok
    subst hs2
    intro id q hq
    rw [save_project_projects] at hq
    by_cases hid : id = ({ p with status := ProjectStatus.Completed } : Project).id
    · rw [if_pos hid] at hq
      obtain rfl := Option.some.inj hq
      exact hid.symm
    · rw [if_neg hid] at hq
      exact h id q hq

/-- Every reachable state satisfies `IdCoherent`. -/
theorem reachable_IdCoherent (s : Storage) (hr : Reachable s) : IdCoherent s := by
  induction hr with
  | refl => intro id p hp; simp [Storage.empty] at hp
  | tail _ hstep ih => exact step_preserves_IdCoherent _ _ hstep ih

/-- In an id-coherent state, a successful verify call never moves any project
out of `Completed` and only ever flips a `Funding` project to `Completed`. -/
theorem verify_step_status (s s' : Storage) (project_id : Nat) (hash : Hash)
    (hok : PifpProtocol.verify_and_release s project_id hash = Except.ok s')
    (hco : IdCoherent s) (id : Nat) (p : Project) (hp : s.projects id = some p) :
    ∃ p', s'.projects id = some p' ∧
      (p'.status = p.status ∨
        (p.status = ProjectStatus.Funding ∧ p'.status = ProjectStatus.Completed)) ∧
      (p.status = ProjectStatus.Completed → p' = p) := by
  obtain ⟨o, q, ho, hq, hqf, -, rfl⟩ := verify_ok_inv s project_id hash s' hok
  have hqid : q.id = project_id := hco project_id q hq
  by_cases hid : id = q.id
  · rw [hid, hqid] at hp
    rw [hq] at hp
    obtain rfl := Option.some.inj hp
    refine ⟨{ q with status := ProjectStatus.Completed }, ?_, Or.inr ⟨hqf, rfl⟩, ?_⟩
    · rw [save_project_projects, if_pos (by rw [hid])]
    · intro hc; rw [hqf] at hc; exact absurd hc (by simp)
  · refine ⟨p, ?_, Or.inl rfl, fun _ => rfl⟩
    rw [save_project_projects, if_neg hid]
    exact hp

/-- When the counter dominates every stored id (no wrap-around has happened
yet), a successful registration writes to a fresh id and leaves every other
entry untouched. -/
theorem register_step_no_overwrite (s s' : Storage) (now : Nat) (creator : Address)
    (goal : Int) (proof_hash : Hash) (deadline : Nat) (p : Project)
    (hok : PifpProtocol.register_project s now creator goal proof_hash deadline
            = Except.ok (p, s'))
    (hcd : CounterDominates s) :
    s.projects p.id = none ∧ ∀ id, id ≠ p.id → s'.projects id = s.projects id := by
  obtain ⟨-, -, hp, hs'⟩ := register_ok_inv s now creator goal proof_hash deadline p s' hok
  constructor
  · cases hq : s.projects p.id with
    | none => rfl
    | some q =>
      have := hcd p.id q hq
      rw [hp] at this
      simp at this
  · intro id hid
    subst hs'
    rw [save_project_projects, if_neg hid]

/-- Under `IdCoherent` and `CounterDominates`, every successful call moves
statuses only `Funding → Completed` (and never out of `Completed`). -/
theorem step_status_mono (s s' : Storage) (hs : Step s s') (hco : IdCoherent s)
    (hcd : CounterDominates s) (id : Nat) (p : Project) (hp : s.projects id = some p) :
    ∃ p', s'.projects id = some p' ∧
      (p'.status = p.status ∨
        (p.status = ProjectStatus.Funding ∧ p'.status = ProjectStatus.Completed)) ∧
      (p.status = ProjectStatus.Completed → p' = p) := by
  cases hs with
  | register now creator goal proof_hash deadline q s2 hok =>
    obtain ⟨hfresh, hframe⟩ := register_step_no_overwrite s s' now creator goal
      proof_hash deadline q hok hcd
    have hid : id ≠ q.id := by
      intro h; rw [h, hfresh] at hp; exact Option.noConfusion hp
    exact ⟨p, by rw [hframe id hid]; exact hp, Or.inl rfl, fun _ => rfl⟩
  | set_oracle admin oracle =>
    exact ⟨p, hp, Or.inl rfl, fun _ => rfl⟩
  | verify project_id submitted_hash s2 hok =>
    exact verify_step_status s s' project_id submitted_hash hok hco id p hp

/-! ### Sequences of registrations -/

/-- Closed form of any successful run of registrations: the returned ids are
the successive counter values modulo `2^64`; the final counter, the oracle
and all untouched project entries are as expected. -/
theorem registerSeq_inv :
    ∀ (args : List RegArgs) (s : Storage) (ids : List Nat) (s' : Storage),
      registerSeq args s = some (ids, s') →
      s.projectCount.getD 0 < U64_MOD →
      ids = (List.range args.length).map
              (fun k => (s.projectCount.getD 0 + k) % U64_MOD)
        ∧ s'.projectCount.getD 0 = (s.projectCount.getD 0 + args.length) % U64_MOD
        ∧ s'.oracle = s.oracle
        ∧ ∀ j, (∀ k, k < args.length → j ≠ (s.projectCount.getD 0 + k) % U64_MOD) →
            s'.projects j = s.projects j := by
  intro args
  induction args with
  | nil =>
    intro s ids s' h hs
    simp only [registerSeq, Option.some.injEq, Prod.mk.injEq] at h
    obtain ⟨rfl, rfl⟩ := h
    exact ⟨by simp, by simpa using (Nat.mod_eq_of_lt hs).symm, rfl, fun j _ => rfl⟩
  | cons a rest ih =>
    intro s ids s' h hs
    unfold registerSeq at h
    cases hreg : PifpProtocol.register_project s a.now a.creator a.goal a.proof_hash
        a.deadline with
    | error e => rw [hreg] at h; exact Option.noConfusion h
    | ok r =>
      obtain ⟨p, s1⟩ := r
      rw [hreg] at h
      dsimp only at h
      cases hrun : registerSeq rest s1 with
      | none => rw [hrun] at h; exact Option.noConfusion h
      | some q =>
        obtain ⟨ids1, s2⟩ := q
        rw [hrun] at h
        dsimp only at h
        rw [Option.some.injEq, Prod.mk.injEq] at h
        obtain ⟨hids, rfl⟩ := h
        set c := s.projectCount.getD 0 with hc
        obtain ⟨-, -, hp, hs1⟩ :=
          register_ok_inv s a.now a.creator a.goal a.proof_hash a.deadline p s1 hreg
        have hc1 : s1.projectCount.getD 0 = (c + 1) % U64_MOD := by
          rw [hs1]; rfl
        have hlt1 : s1.projectCount.getD 0 < U64_MOD := by
          rw [hc1]; exact Nat.mod_lt _ (by norm_num [U64_MOD])
        obtain ⟨hids1, hcnt, horc, hproj⟩ := ih s1 ids1 s2 hrun hlt1
        have hpid : p.id = c := by rw [hp]
        refine ⟨?_, ?_, ?_, ?_⟩
        · rw [← hids, hids1, hc1]
          have hshift : (List.range rest.length).map
                (fun k => ((c + 1) % U64_MOD + k) % U64_MOD)
              = (List.range rest.length).map (fun k => (c + (k + 1)) % U64_MOD) := by
            refine List.map_congr_left ?_
            intro b _
            rw [Nat.mod_add_mod]
            congr 1
            omega
          rw [hshift]
          have hrange : (List.range (a :: rest).length).map (fun k => (c + k) % U64_MOD)
              = (c % U64_MOD) :: (List.range rest.length).map
                  (fun k => (c + (k + 1)) % U64_MOD) := by
            rw [List.length_cons, List.range_succ_eq_map, List.map_cons, List.map_map]
            simp [Function.comp]
          rw [hrange, Nat.mod_eq_of_lt hs, hpid]
        · rw [hcnt, hc1, Nat.mod_add_mod, List.length_cons]
          congr 1
          omega
        · rw [horc, hs1]
          rfl
        · intro j hj
          have hj1 : ∀ k, k < rest.length → j ≠ (s1.projectCount.getD 0 + k) % U64_MOD := by
            intro k hk
            rw [hc1, Nat.mod_add_mod]
            have := hj (k + 1) (by simp [List.length_cons]; omega)
            rw [show c + 1 + k = c + (k + 1) by omega]
            exact this
          have hjp : j ≠ p.id := by
            have h0 := hj 0 (by simp [List.length_cons])
            rw [Nat.add_zero, Nat.mod_eq_of_lt hs] at h0
            rw [hpid]
            exact h0
          rw [hproj j hj1, hs1, save_project_projects, if_neg hjp]

/-- A sequence of valid registrations always succeeds. -/
theorem registerSeq_ok_of_valid :
    ∀ (args : List RegArgs) (s : Storage),
      (∀ a ∈ args, 0 < a.goal ∧ a.now < a.deadline) →
      ∃ ids s', registerSeq args s = some (ids, s') := by
  intro args
  induction args with
  | nil => intro s _; exact ⟨[], s, rfl⟩
  | cons a rest ih =>
    intro s hv
    obtain ⟨hg, hd⟩ := hv a (List.mem_cons_self a rest)
    cases hreg : PifpProtocol.register_project s a.now a.creator a.goal a.proof_hash
        a.deadline with
    | error e =>
      have hok := register_ok_of_valid s a.now a.creator a.goal a.proof_hash a.deadline hg hd
      rw [hreg] at hok
      exact Except.noConfusion hok
    | ok r =>
      obtain ⟨p, s1⟩ := r
      obtain ⟨ids1, s2, hrun⟩ := ih s1 (fun b hb => hv b (List.mem_cons_of_mem a hb))
      refine ⟨p.id :: ids1, s2, ?_⟩
      unfold registerSeq
      rw [hreg]
      dsimp only
      rw [hrun]

/-- A successful run of registrations is a chain of `Step`s. -/
theorem registerSeq_steps :
    ∀ (args : List RegArgs) (s : Storage) (ids : List Nat) (s' : Storage),
      registerSeq args s = some (ids, s') →
      Relation.ReflTransGen Step s s' := by
  intro args
  induction args with
  | nil =>
    intro s ids s' h
    simp only [registerSeq, Option.some.injEq, Prod.mk.injEq] at h
    rw [← h.2]
  | cons a rest ih =>
    intro s ids s' h
    unfold registerSeq at h
    cases hreg : PifpProtocol.register_project s a.now a.creator a.goal a.proof_hash
        a.deadline with
    | error e => rw [hreg] at h; exact Option.noConfusion h
    | ok r =>
      obtain ⟨p, s1⟩ := r
      rw [hreg] at h
      dsimp only at h
      cases hrun : registerSeq rest s1 with
      | none => rw [hrun] at h; exact Option.noConfusion h
      | some q =>
        obtain ⟨ids1, s2⟩ := q
        rw [hrun] at h
        dsimp only at h
        rw [Option.some.injEq, Prod.mk.injEq] at h
        obtain ⟨-, rfl⟩ := h
        exact Relation.ReflTransGen.head
          (Step.register s a.now a.creator a.goal a.proof_hash a.deadline p s1 hreg)
          (ih s1 ids1 s2 hrun)

/-! ### Concrete example states -/

/-- The 32-byte hash `0x01…01` (as in the tests). -/
def exHash : Hash := List.replicate 32 1

/-- A different 32-byte hash, `0x63…63` (`99` in every byte, as in
`test_verify_wrong_hash`). -/
def exWrongHash : Hash := List.replicate 32 99

/-- The project produced by the first registration
(`creator = 3`, `goal = 1000`, `deadline = 100`). -/
def exProject : Project :=
  { id := 0, creator := 3, goal := 1000, balance := 0, proof_hash := exHash,
    deadline := 100, status := ProjectStatus.Funding }

/-- The project `exProject` once completed. -/
def exProjectDone : Project := { exProject with status := ProjectStatus.Completed }

/-- Storage after `set_oracle(7, 5)` on the empty state. -/
def exS1 : Storage := PifpProtocol.set_oracle Storage.empty 7 5

/-- Storage after additionally registering `exProject` at ledger time 0. -/
def exS2 : Storage :=
  storage.save_project { exS1 with projectCount := some (1 % U64_MOD) } exProject

/-- Storage after additionally verifying project 0 with the right hash. -/
def exS3 : Storage := storage.save_project exS2 exProjectDone

theorem exS2_register :
    PifpProtocol.register_project exS1 0 3 1000 exHash 100 = Except.ok (exProject, exS2) := rfl

theorem exS3_verify : PifpProtocol.verify_and_release exS2 0 exHash = Except.ok exS3 := rfl

/-- The three-call trace `set_oracle; register_project; verify_and_release`
reaches `exS3`. -/
theorem exS3_reachable : Reachable exS3 :=
  Relation.ReflTransGen.head (Step.set_oracle Storage.empty 7 5)
    (Relation.ReflTransGen.head
      (Step.register exS1 0 3 1000 exHash 100 exProject exS2 exS2_register)
      (Relation.ReflTransGen.head (Step.verify exS2 0 exHash exS3 exS3_verify)
        Relation.ReflTransGen.refl))

theorem exS2_reachable : Reachable exS2 :=
  Relation.ReflTransGen.head (Step.set_oracle Storage.empty 7 5)
    (Relation.ReflTransGen.head
      (Step.register exS1 0 3 1000 exHash 100 exProject exS2 exS2_register)
      Relation.ReflTransGen.refl)

/-! ### Claims -/

/-- C3: for a registered project in status `Funding` with a configured
oracle, `verify_and_release` with any hash differing from the stored
`proof_hash` fails with `HashMismatch` ("proof verification failed: hash
mismatch") and leaves the whole persistent state (in particular the
project's status, still `Funding`) unchanged. -/
theorem C3_wrong_hash (s : Storage) (id : Nat) (p : Project) (o : Address) (h' : Hash)
    (ho : s.oracle = some o) (hp : s.projects id = some p)
    (hst : p.status = ProjectStatus.Funding) (hne : h' ≠ p.proof_hash) :
    PifpProtocol.verify_and_release s id h' = Except.error PifpError.HashMismatch ∧
    PifpError.HashMismatch.message = "proof verification failed: hash mismatch" ∧
    runVerify s id h' = s :=
  have hv := verify_hash_mismatch s o id p h' ho hp hst hne
  ⟨hv, rfl, runVerify_of_error s id h' PifpError.HashMismatch hv⟩

theorem C3_wrong_hash_witness :
    PifpProtocol.verify_and_release exS2 0 exWrongHash
      = Except.error PifpError.HashMismatch ∧
    PifpError.HashMismatch.message = "proof verification failed: hash mismatch" ∧
    runVerify exS2 0 exWrongHash = exS2 :=
  C3_wrong_hash exS2 0 exProject 5 exWrongHash rfl rfl rfl (by decide)

/-- C4 (amended): `register_project` fails with `InvalidGoal` ("goal must be
positive") iff `goal ≤ 0`, and fails with `InvalidDeadline` ("deadline must
be in the future") iff `goal > 0` and `deadline ≤ now` (the goal check runs
first, so a call violating both preconditions reports `InvalidGoal`); any
failure leaves the persistent state unchanged. -/
theorem C4_register_validation (s : Storage) (now : Nat) (creator : Address)
    (goal : Int) (proof_hash : Hash) (deadline : Nat) :
    (PifpProtocol.register_project s now creator goal proof_hash deadline
        = Except.error PifpError.InvalidGoal ↔ goal ≤ 0) ∧
    (PifpProtocol.register_project s now creator goal proof_hash deadline
        = Except.error PifpError.InvalidDeadline ↔ (0 < goal ∧ deadline ≤ now)) ∧
    (∀ e, PifpProtocol.register_project s now creator goal proof_hash deadline
        = Except.error e →
      runRegister s now creator goal proof_hash deadline = s) ∧
    PifpError.InvalidGoal.message = "goal must be positive" ∧
    PifpError.InvalidDeadline.message = "deadline must be in the future" := by
  refine ⟨?_, ?_, ?_, rfl, rfl⟩
  · unfold PifpProtocol.register_project
    by_cases hg : goal ≤ 0
    · simp [hg]
    · rw [if_neg hg]
      by_cases hd : deadline ≤ now
      · rw [if_pos hd]
        exact ⟨fun h => absurd (Except.error.inj h) (by simp),
               fun h => absurd h hg⟩
      · rw [if_neg hd]
        exact ⟨fun h => Except.noConfusion h, fun h => absurd h hg⟩
  · unfold PifpProtocol.register_project
    by_cases hg : goal ≤ 0
    · rw [if_pos hg]
      exact ⟨fun h => absurd (Except.error.inj h) (by simp),
             fun h => absurd hg (by omega)⟩
    · rw [if_neg hg]
      by_cases hd : deadline ≤ now
      · rw [if_pos hd]
        exact ⟨fun _ => ⟨by omega, hd⟩, fun _ => rfl⟩
      · rw [if_neg hd]
        exact ⟨fun h => Except.noConfusion h, fun h => absurd h.2 hd⟩
  · intro e h
    exact runRegister_of_error s now creator goal proof_hash deadline e h

theorem C4_register_validation_witness :
    PifpProtocol.register_project Storage.empty 0 0 0 exHash 5
      = Except.error PifpError.InvalidGoal ∧
    runRegister Storage.empty 0 0 0 exHash 5 = Storage.empty :=
  ⟨(C4_register_validation Storage.empty 0 0 0 exHash 5).1.2 (by decide),
   (C4_register_validation Storage.empty 0 0 0 exHash 5).2.2.1 PifpError.InvalidGoal
     ((C4_register_validation Storage.empty 0 0 0 exHash 5).1.2 (by decide))⟩

/-- C4 counterexample: with `goal = 0` and `deadline = 0 ≤ now = 0`, the
call satisfies `deadline ≤ now` yet fails with `InvalidGoal`, not
`InvalidDeadline` — so "fails with `InvalidDeadline` iff
`deadline ≤ now`" is false as stated. -/
theorem C4_counterexample :
    (0 : Nat) ≤ 0 ∧
    PifpProtocol.register_project Storage.empty 0 0 0 exHash 0
      = Except.error PifpError.InvalidGoal ∧
    PifpProtocol.register_project Storage.empty 0 0 0 exHash 0
      ≠ Except.error PifpError.InvalidDeadline := by
  refine ⟨Nat.le_refl 0, rfl, ?_⟩
  intro h
  rw [show PifpProtocol.register_project Storage.empty 0 0 0 exHash 0
      = Except.error PifpError.InvalidGoal from rfl] at h
  exact PifpError.noConfusion (Except.error.inj h)

/-- C5: a freshly registered project is retrievable via `get_project` with
identical field values; `load_project` after `save_project` round-trips the
stored value unchanged; and `load_project` / `get_project` on an absent id
fail with `NotFound` ("project not found"). -/
theorem C5_roundtrip :
    (∀ s now creator goal proof_hash deadline p s',
      PifpProtocol.register_project s now creator goal proof_hash deadline
          = Except.ok (p, s') →
      PifpProtocol.get_project s' p.id = Except.ok p) ∧
    (∀ (s : Storage) (p : Project) (id : Nat), p.id = id →
      storage.load_project (storage.save_project s p) id = Except.ok p) ∧
    (∀ (s : Storage) (id : Nat), s.projects id = none →
      storage.load_project s id = Except.error PifpError.NotFound ∧
      PifpProtocol.get_project s id = Except.error PifpError.NotFound ∧
      PifpError.NotFound.message = "project not found") := by
  refine ⟨?_, ?_, ?_⟩
  · intro s now creator goal proof_hash deadline p s' h
    obtain ⟨-, -, -, rfl⟩ :=
      register_ok_inv s now creator goal proof_hash deadline p s' h
    show storage.load_project _ _ = _
    rw [load_project_ok_iff, save_project_projects, if_pos rfl]
  · intro s p id hid
    rw [load_project_ok_iff, save_project_projects, if_pos hid.symm]
  · intro s id h
    exact ⟨(load_project_err_iff s id).2 h, (load_project_err_iff s id).2 h, rfl⟩

theorem C5_roundtrip_witness :
    PifpProtocol.get_project exS2 exProject.id = Except.ok exProject ∧
    storage.load_project Storage.empty 42 = Except.error PifpError.NotFound :=
  ⟨C5_roundtrip.1 exS1 0 3 1000 exHash 100 exProject exS2 exS2_register,
   (C5_roundtrip.2.2 Storage.empty 42 rfl).1⟩

/-- C6 (amended): with an oracle configured, `verify_and_release` on an id
with no stored project fails with `NotFound` and changes nothing; when no
oracle has ever been configured, the oracle check runs first, so the same
call fails with `NotConfigured` instead of `NotFound`. -/
theorem C6_not_found (s : Storage) (id : Nat) (hash : Hash) (o : Address)
    (ho : s.oracle = some o) (hp : s.projects id = none) :
    PifpProtocol.verify_and_release s id hash = Except.error PifpError.NotFound ∧
    runVerify s id hash = s :=
  have hv := verify_not_found s o id hash ho hp
  ⟨hv, runVerify_of_error s id hash PifpError.NotFound hv⟩

theorem C6_not_found_witness :
    PifpProtocol.verify_and_release exS1 999 exHash = Except.error PifpError.NotFound ∧
    runVerify exS1 999 exHash = exS1 :=
  C6_not_found exS1 999 exHash 5 rfl rfl

/-- C6 counterexample: on the empty state (no oracle ever configured,
project id 999 absent), `verify_and_release(999, 0x01…01)` fails with
`NotConfigured`, not `NotFound` — the claim's "regardless of whether an
oracle has been configured" is false, because the oracle check precedes the
project lookup. -/
theorem C6_counterexample :
    Storage.empty.projects 999 = none ∧
    Storage.empty.oracle = none ∧
    exHash.length = 32 ∧
    PifpProtocol.verify_and_release Storage.empty 999 exHash
      = Except.error PifpError.NotConfigured ∧
    PifpProtocol.verify_and_release Storage.empty 999 exHash
      ≠ Except.error PifpError.NotFound := by
  refine ⟨rfl, rfl, by decide, rfl, ?_⟩
  intro h
  rw [show PifpProtocol.verify_and_release Storage.empty 999 exHash
      = Except.error PifpError.NotConfigured from rfl] at h
  exact PifpError.noConfusion (Except.error.inj h)

/-- C7: with `OracleKey` absent, every `verify_and_release` call fails with
`NotConfigured` ("oracle not set"); at the store level, `get_oracle` fails
with `NotConfigured` exactly when `OracleKey` is absent. -/
theorem C7_oracle_not_configured (s : Storage) :
    (s.oracle = none → ∀ id hash,
      PifpProtocol.verify_and_release s id hash
          = Except.error PifpError.NotConfigured ∧
      PifpError.NotConfigured.message = "oracle not set" ∧
      runVerify s id hash = s) ∧
    (storage.get_oracle s = Except.error PifpError.NotConfigured ↔ s.oracle = none) := by
  refine ⟨?_, get_oracle_err_iff s⟩
  intro hnone id hash
  have hv := verify_not_configured s id hash hnone
  exact ⟨hv, rfl, runVerify_of_error s id hash PifpError.NotConfigured hv⟩

theorem C7_oracle_not_configured_witness :
    PifpProtocol.verify_and_release Storage.empty 0 exHash
      = Except.error PifpError.NotConfigured ∧
    PifpError.NotConfigured.message = "oracle not set" ∧
    runVerify Storage.empty 0 exHash = Storage.empty :=
  (C7_oracle_not_configured Storage.empty).1 rfl 0 exHash

/-- C8: a successful `register_project(creator, goal, proof_hash, deadline)`
returns a project with `balance = 0`, `status = Funding`, the argument
values in the corresponding fields, and the freshly allocated counter value
as id; exactly that project is persisted at its id. -/
theorem C8_register_fields (s : Storage) (now : Nat) (creator : Address) (goal : Int)
    (proof_hash : Hash) (deadline : Nat) (p : Project) (s' : Storage)
    (h : PifpProtocol.register_project s now creator goal proof_hash deadline
          = Except.ok (p, s')) :
    p.balance = 0 ∧ p.status = ProjectStatus.Funding ∧ p.creator = creator ∧
    p.goal = goal ∧ p.proof_hash = proof_hash ∧ p.deadline = deadline ∧
    p.id = s.projectCount.getD 0 ∧ s'.projects p.id = some p := by
  obtain ⟨-, -, rfl, rfl⟩ := register_ok_inv s now creator goal proof_hash deadline p s' h
  refine ⟨rfl, rfl, rfl, rfl, rfl, rfl, rfl, ?_⟩
  rw [save_project_projects, if_pos rfl]

theorem C8_register_fields_witness :
    exProject.balance = 0 ∧ exProject.status = ProjectStatus.Funding ∧
    exProject.creator = 3 ∧ exProject.goal = 1000 ∧ exProject.proof_hash = exHash ∧
    exProject.deadline = 100 ∧ exProject.id = exS1.projectCount.getD 0 ∧
    exS2.projects exProject.id = some exProject :=
  C8_register_fields exS1 0 3 1000 exHash 100 exProject exS2 exS2_register

/-- C9: in every reachable state, a successful `verify_and_release` changes
only the status of the project stored at the verified id (to `Completed`,
all other fields kept); every other project entry, the project counter and
the oracle address are unchanged. -/
theorem C9_verify_frame (s s' : Storage) (project_id : Nat) (hash : Hash)
    (hr : Reachable s)
    (h : PifpProtocol.verify_and_release s project_id hash = Except.ok s') :
    ∃ p, s.projects project_id = some p ∧
      s'.projects project_id = some { p with status := ProjectStatus.Completed } ∧
      (∀ j, j ≠ project_id → s'.projects j = s.projects j) ∧
      s'.projectCount = s.projectCount ∧
      s'.oracle = s.oracle := by
  obtain ⟨o, p, ho, hp, -, -, rfl⟩ := verify_ok_inv s project_id hash s' h
  have hpid : p.id = project_id := reachable_IdCoherent s hr project_id p hp
  refine ⟨p, hp, ?_, ?_, rfl, rfl⟩
  · rw [save_project_projects,
      if_pos (show project_id = ({ p with status := ProjectStatus.Completed } : Project).id
        from hpid.symm)]
  · intro j hj
    rw [save_project_projects,
      if_neg (show ¬ j = ({ p with status := ProjectStatus.Completed } : Project).id
        from fun hc => hj (hc.trans hpid))]

theorem C9_verify_frame_witness :
    ∃ p, exS2.projects 0 = some p ∧
      exS3.projects 0 = some { p with status := ProjectStatus.Completed } ∧
      (∀ j, j ≠ 0 → exS3.projects j = exS2.projects j) ∧
      exS3.projectCount = exS2.projectCount ∧
      exS3.oracle = exS2.oracle :=
  C9_verify_frame exS2 exS3 0 exHash exS2_reachable exS3_verify

/-- The registration arguments used in the long example runs
(`goal = 1000 > 0`, `deadline = 100 >` ledger time `0`). -/
def exArgs : RegArgs :=
  { now := 0, creator := 3, goal := 1000, proof_hash := exHash, deadline := 100 }

/-- C1 (amended): in every reachable state, `verify_and_release` on a
project whose status is `Completed` fails with `AlreadyCompleted` ("project
already completed") and leaves the state unchanged, and no successful
`verify_and_release` ever moves a project out of `Completed`; while the id
counter still dominates every stored id (fewer than `2^64` ids allocated,
before the u64 wrap), every successful call moves statuses only
`Funding → Completed`. -/
theorem C1_completed_terminal (s : Storage) (hr : Reachable s) :
    (∀ id p hash, s.projects id = some p → p.status = ProjectStatus.Completed →
      PifpProtocol.verify_and_release s id hash
          = Except.error PifpError.AlreadyCompleted ∧
      PifpError.AlreadyCompleted.message = "project already completed" ∧
      runVerify s id hash = s) ∧
    (∀ s' project_id hash,
      PifpProtocol.verify_and_release s project_id hash = Except.ok s' →
      ∀ id p, s.projects id = some p → p.status = ProjectStatus.Completed →
        s'.projects id = some p) ∧
    (CounterDominates s → ∀ s', Step s s' → ∀ id p, s.projects id = some p →
      ∃ p', s'.projects id = some p' ∧
        (p'.status = p.status ∨
          (p.status = ProjectStatus.Funding ∧ p'.status = ProjectStatus.Completed)) ∧
        (p.status = ProjectStatus.Completed → p' = p)) := by
  refine ⟨?_, ?_, ?_⟩
  · intro id p hash hp hc
    obtain ⟨o, ho⟩ := reachable_CompletedHasOracle s hr id p hp hc
    have hv := verify_completed s o id p hash ho hp hc
    exact ⟨hv, rfl, runVerify_of_error s id hash PifpError.AlreadyCompleted hv⟩
  · intro s' project_id hash hok id p hp hc
    obtain ⟨p', hp', -, hfix⟩ :=
      verify_step_status s s' project_id hash hok (reachable_IdCoherent s hr) id p hp
    rw [hp', hfix hc]
  · intro hcd s' hs id p hp
    exact step_status_mono s s' hs (reachable_IdCoherent s hr) hcd id p hp

theorem C1_completed_terminal_witness :
    PifpProtocol.verify_and_release exS3 0 exHash
      = Except.error PifpError.AlreadyCompleted ∧
    PifpError.AlreadyCompleted.message = "project already completed" ∧
    runVerify exS3 0 exHash = exS3 :=
  (C1_completed_terminal exS3 exS3_reachable).1 0 exProjectDone exHash rfl rfl

/-- C1 counterexample: after completing project 0 and then letting the id
counter wrap around `2^64`, one further `register_project` is a reachable
step that overwrites the `Completed` project 0 with a fresh `Funding`
project — a transition out of `Completed`, so the unqualified invariant is
false on reachable states. -/
theorem C1_counterexample :
    ∃ s s' : Storage, Reachable s ∧ Step s s' ∧
      (∃ p, s.projects 0 = some p ∧ p.status = ProjectStatus.Completed) ∧
      (∃ q, s'.projects 0 = some q ∧ q.status = ProjectStatus.Funding) := by
  obtain ⟨ids, sBig, hrun⟩ := registerSeq_ok_of_valid
    (List.replicate (U64_MOD - 1) exArgs) exS3 (by
      intro a ha
      rw [List.eq_of_mem_replicate ha]
      exact ⟨by norm_num [exArgs], by norm_num [exArgs]⟩)
  have hc3 : exS3.projectCount.getD 0 = 1 % U64_MOD := rfl
  have hM : (2:Nat) ≤ U64_MOD := by norm_num [U64_MOD]
  have hc3' : exS3.projectCount.getD 0 = 1 := by
    rw [hc3, Nat.mod_eq_of_lt (by omega)]
  obtain ⟨hids, hcnt, horc, hproj⟩ := registerSeq_inv _ exS3 ids sBig hrun
    (by rw [hc3']; omega)
  have hcnt0 : sBig.projectCount.getD 0 = 0 := by
    rw [hcnt, hc3', List.length_replicate,
      show 1 + (U64_MOD - 1) = U64_MOD by omega, Nat.mod_self]
  have hfr : ∀ k, k < (List.replicate (U64_MOD - 1) exArgs).length →
      (0 : Nat) ≠ (exS3.projectCount.getD 0 + k) % U64_MOD := by
    intro k hk
    rw [List.length_replicate] at hk
    rw [hc3', Nat.mod_eq_of_lt (by omega)]
    omega
  have hp0 : sBig.projects 0 = some exProjectDone := by
    rw [hproj 0 hfr]
    rfl
  have hreach : Reachable sBig :=
    Relation.ReflTransGen.trans exS3_reachable (registerSeq_steps _ exS3 ids sBig hrun)
  have hreg := register_ok_of_valid sBig 0 3 1000 exHash 100 (by norm_num) (by norm_num)
  rw [hcnt0] at hreg
  refine ⟨sBig, _, hreach,
    Step.register sBig 0 3 1000 exHash 100 exProject _ hreg,
    ⟨exProjectDone, hp0, rfl⟩, ⟨exProject, ?_, rfl⟩⟩
  rw [save_project_projects, if_pos rfl]
  rfl

/-- C2 (amended): every successful sequence of at most `2^64` registrations
from the empty state returns ids `0, 1, 2, …` in call order (no duplicates,
no gaps); `get_and_increment_project_id` reads the counter treating absence
as 0, writes back the successor modulo `2^64`, and returns the pre-increment
value; and every successfully registered project's id is exactly that
pre-increment counter value.  Beyond `2^64` successful calls the counter
wraps and ids repeat. -/
theorem C2_sequential_ids :
    (∀ (args : List RegArgs) (ids : List Nat) (s' : Storage),
      registerSeq args Storage.empty = some (ids, s') →
      args.length ≤ U64_MOD →
      ids = List.range args.length) ∧
    (∀ s : Storage, storage.get_and_increment_project_id s
        = (s.projectCount.getD 0,
           { s with projectCount := some ((s.projectCount.getD 0 + 1) % U64_MOD) })) ∧
    (∀ s now creator goal proof_hash deadline p s',
      PifpProtocol.register_project s now creator goal proof_hash deadline
          = Except.ok (p, s') →
      p.id = s.projectCount.getD 0) := by
  refine ⟨?_, fun s => rfl, ?_⟩
  · intro args ids s' h hlen
    have h0 : Storage.empty.projectCount.getD 0 = 0 := rfl
    obtain ⟨hids, -, -, -⟩ := registerSeq_inv args Storage.empty ids s' h
      (by rw [h0]; norm_num [U64_MOD])
    rw [hids, h0]
    have hpt : ∀ k ∈ List.range args.length, (0 + k) % U64_MOD = k := by
      intro k hk
      rw [List.mem_range] at hk
      rw [Nat.zero_add, Nat.mod_eq_of_lt (by omega)]
    rw [List.map_congr_left hpt]
    exact List.map_id (List.range args.length)
  · intro s now creator goal proof_hash deadline p s' h
    obtain ⟨-, -, rfl, -⟩ := register_ok_inv s now creator goal proof_hash deadline p s' h
    rfl

/-- The storage produced by two registrations with `exArgs` from the empty
state. -/
def exSeqS : Storage :=
  ((registerSeq [exArgs, exArgs] Storage.empty).getD ([], Storage.empty)).2

theorem C2_sequential_ids_witness : ([0, 1] : List Nat) = List.range 2 :=
  C2_sequential_ids.1 [exArgs, exArgs] [0, 1] exSeqS rfl (by norm_num [U64_MOD])

/-- C2 counterexample: a run of `2^64 + 1` registrations from the empty
state in which every call succeeds, yet the returned id list contains a
duplicate (the call after the counter wrap returns id 0 again) — so the
unqualified "no duplicates and no gaps" is false. -/
theorem C2_counterexample :
    ∃ ids s', registerSeq (List.replicate (U64_MOD + 1) exArgs) Storage.empty
        = some (ids, s') ∧ ¬ ids.Nodup := by
  obtain ⟨ids, s', hrun⟩ := registerSeq_ok_of_valid (List.replicate (U64_MOD + 1) exArgs)
    Storage.empty (by
      intro a ha
      rw [List.eq_of_mem_replicate ha]
      exact ⟨by norm_num [exArgs], by norm_num [exArgs]⟩)
  refine ⟨ids, s', hrun, ?_⟩
  have h0 : Storage.empty.projectCount.getD 0 = 0 := rfl
  obtain ⟨hids, -, -, -⟩ := registerSeq_inv _ Storage.empty ids s' hrun
    (by rw [h0]; norm_num [U64_MOD])
  rw [List.length_replicate, h0] at hids
  intro hnodup
  rw [hids] at hnodup
  have hinj := List.inj_on_of_nodup_map hnodup
  have hmem0 : (0 : Nat) ∈ List.range (U64_MOD + 1) := List.mem_range.2 (by omega)
  have hmemM : U64_MOD ∈ List.range (U64_MOD + 1) := List.mem_range.2 (by omega)
  have heq : (0 + (0 : Nat)) % U64_MOD = (0 + U64_MOD) % U64_MOD := by
    rw [Nat.zero_add, Nat.zero_add, Nat.mod_self, Nat.zero_mod]
  have hcontra := hinj hmem0 hmemM heq
  have hpos : 0 < U64_MOD := by norm_num [U64_MOD]
  omega

/-- C10: the counter successor is the unchecked u64 addition `current + 1`
(wrapping modulo `2^64`): below the maximum the call returns the stored
value and persists its successor; at `2^64 - 1` the successor wraps to 0,
so the following allocation returns 0 again; distinct, gap-free, increasing
ids are guaranteed for runs of at most `2^64` allocations. -/
theorem C10_counter_overflow :
    (∀ (s : Storage) (c : Nat), s.projectCount = some c → c < U64_MOD - 1 →
      storage.get_and_increment_project_id s
          = (c, { s with projectCount := some (c + 1) })) ∧
    (∀ s : Storage, s.projectCount = some (U64_MOD - 1) →
      storage.get_and_increment_project_id s
          = (U64_MOD - 1, { s with projectCount := some 0 }) ∧
      (storage.get_and_increment_project_id
          (storage.get_and_increment_project_id s).2).1 = 0) ∧
    (∀ (args : List RegArgs) (ids : List Nat) (s' : Storage),
      registerSeq args Storage.empty = some (ids, s') →
      args.length ≤ U64_MOD →
      ids.Nodup ∧ ids = List.range args.length) := by
  have hM : (2:Nat) ≤ U64_MOD := by norm_num [U64_MOD]
  refine ⟨?_, ?_, ?_⟩
  · intro s c hc hlt
    unfold storage.get_and_increment_project_id
    rw [hc]
    simp only [Option.getD_some]
    rw [Nat.mod_eq_of_lt (by omega)]
  · intro s hc
    have h1 : storage.get_and_increment_project_id s
        = (U64_MOD - 1, { s with projectCount := some 0 }) := by
      unfold storage.get_and_increment_project_id
      rw [hc]
      simp only [Option.getD_some]
      rw [show U64_MOD - 1 + 1 = U64_MOD by omega, Nat.mod_self]
    refine ⟨h1, ?_⟩
    rw [h1]
    rfl
  · intro args ids s' h hlen
    have h0 : Storage.empty.projectCount.getD 0 = 0 := rfl
    obtain ⟨hids, -, -, -⟩ := registerSeq_inv args Storage.empty ids s' h
      (by rw [h0]; norm_num [U64_MOD])
    rw [hids, h0]
    have hpt : ∀ k ∈ List.range args.length, (0 + k) % U64_MOD = k := by
      intro k hk
      rw [List.mem_range] at hk
      rw [Nat.zero_add, Nat.mod_eq_of_lt (by omega)]
    have hmapid : List.map (fun k => k) (List.range args.length)
        = List.range args.length := List.map_id (List.range args.length)
    rw [List.map_congr_left hpt, hmapid]
    exact ⟨List.nodup_range args.length, rfl⟩

/-- A storage whose counter holds 5. -/
def exCnt5 : Storage :=
  { projectCount := some 5, projects := fun _ => none, oracle := none }

/-- A storage whose counter holds the largest u64 value. -/
def exCntMax : Storage :=
  { projectCount := some (U64_MOD - 1), projects := fun _ => none, oracle := none }

theorem C10_counter_overflow_witness :
    storage.get_and_increment_project_id exCnt5
        = (5, { exCnt5 with projectCount := some 6 }) ∧
    storage.get_and_increment_project_id exCntMax
        = (U64_MOD - 1, { exCntMax with projectCount := some 0 }) :=
  ⟨C10_counter_overflow.1 exCnt5 5 rfl (by norm_num [U64_MOD]),
   (C10_counter_overflow.2.1 exCntMax rfl).1⟩
